import Mathlib

/-!
Verification of the anchor/device state machine of the internet-identity
canister (`src/internet_identity/src/storage/anchor.rs`).

The embedding below translates the Rust module line by line:
* `Device`, `Anchor`, `AnchorError` mirror the Rust data types; Rust
  byte buffers (`DeviceKey`, `CredentialId`) become `List Nat`, Rust
  strings stay `String` with byte length `String.utf8ByteSize`.
* each public operation (`add_device`, `remove_device`, `modify_device`,
  `set_device_usage_timestamp`, `domain_activity_since`) is a pure function
  returning the post state of `self` together with the Rust `Result`;
  an early `return Err(..)` leaves the state component untouched, exactly
  as `&mut self` with an early return does in Rust.
* the ambient `ic_cdk::caller()` becomes an explicit `caller` argument on
  the operations that consult it.
-/

deriving instance DecidableEq for Except

/-- Rust `DeviceKey = ByteBuf`: a byte string. -/
abbrev DeviceKey : Type := List Nat

/-- Rust `CredentialId = ByteBuf`: a byte string. -/
abbrev CredentialId : Type := List Nat

/-- Rust `Timestamp = u64` (nanoseconds). -/
abbrev Timestamp : Type := Nat

/-- Modelled from the spec: `purpose ∈ {Authentication, Recovery}`
(the type lives in the `internet_identity_interface` crate, outside the
sources at hand). -/
inductive Purpose where
  | authentication
  | recovery
deriving DecidableEq

/-- Modelled from the spec: `key_type ∈ {Unknown, Platform, CrossPlatform,
SeedPhrase, BrowserStorageKey}` (type from `internet_identity_interface`). -/
inductive KeyType where
  | Unknown
  | Platform
  | CrossPlatform
  | SeedPhrase
  | BrowserStorageKey
deriving DecidableEq

/-- Modelled from the spec: `protection ∈ {Unprotected, Protected}`
(type from `internet_identity_interface`). -/
inductive DeviceProtection where
  | Unprotected
  | Protected
deriving DecidableEq

/-- Modelled from the spec: a principal is either the self-authenticating
principal derived deterministically from a device public key
(`principal(device) = H₂₉("\x1dic" ‖ device.pubkey) ‖ 0x02`, an injective
derivation), or some other principal (anonymous, canister, …).  The code
only ever compares principals for equality. -/
inductive Principal where
  | selfAuthenticating (pubkey : DeviceKey)
  | other (id : Nat)
deriving DecidableEq

/-- Rust `Device` (anchor.rs): internal device representation. -/
structure Device where
  pubkey : DeviceKey
  alias_ : String
  credential_id : Option CredentialId
  purpose : Purpose
  key_type : KeyType
  protection : DeviceProtection
  origin : Option String
  last_usage_timestamp : Option Timestamp
deriving DecidableEq

/-- Rust `DeviceData` (wire-level device, from `internet_identity_interface`):
the fields are exactly those transcribed by the two `From` impls in
anchor.rs — everything of `Device` except `last_usage_timestamp`. -/
structure DeviceData where
  pubkey : DeviceKey
  alias_ : String
  credential_id : Option CredentialId
  purpose : Purpose
  key_type : KeyType
  protection : DeviceProtection
  origin : Option String
deriving DecidableEq

/-- Rust `impl From<DeviceData> for Device` (anchor.rs, lines 33–46). -/
def Device.ofDeviceData (device_data : DeviceData) : Device :=
  { pubkey := device_data.pubkey
    alias_ := device_data.alias_
    credential_id := device_data.credential_id
    purpose := device_data.purpose
    key_type := device_data.key_type
    protection := device_data.protection
    origin := device_data.origin
    last_usage_timestamp := none }

/-- Rust `impl From<Device> for DeviceData` (anchor.rs, lines 48–60). -/
def DeviceData.ofDevice (device : Device) : DeviceData :=
  { pubkey := device.pubkey
    alias_ := device.alias_
    credential_id := device.credential_id
    purpose := device.purpose
    key_type := device.key_type
    protection := device.protection
    origin := device.origin }

/-- Rust `Anchor`: a record of devices. -/
structure Anchor where
  devices : List Device
deriving DecidableEq

/-- Rust `AnchorError` (anchor.rs, lines 456–486), payloads in field order. -/
inductive AnchorError where
  | TooManyDevices (limit : Nat) (num_devices : Nat)
  | DeviceLimitExceeded (field : String) (length : Nat) (limit : Nat)
  | CumulativeDataLimitExceeded (length : Nat) (limit : Nat)
  | InvalidDeviceProtection (key_type : KeyType)
  | MutationNotAllowed (authorized_principal : Principal) (actual_principal : Principal)
  | MultipleRecoveryPhrases
  | CannotModifyDeviceKey
  | NotFound (device_key : DeviceKey)
  | DuplicateDevice (device_key : DeviceKey)
deriving DecidableEq

/-- Byte length of a Rust `String` (`String::len`). -/
def strLen (s : String) : Nat := s.utf8ByteSize

/-- Rust `Device::variable_fields_len` (anchor.rs, lines 285–290). -/
def Device.variable_fields_len (d : Device) : Nat :=
  strLen d.alias_ + d.pubkey.length
    + ((d.credential_id.map List.length).getD 0)
    + ((d.origin.map strLen).getD 0)

/-- Rust const `MAX_DEVICES_PER_ANCHOR` in `check_anchor_invariants`. -/
def MAX_DEVICES_PER_ANCHOR : Nat := 10

/-- Rust const `VARIABLE_FIELDS_LIMIT` in `check_anchor_invariants`. -/
def VARIABLE_FIELDS_LIMIT : Nat := 2348

/-- Rust `check_anchor_invariants` (anchor.rs, lines 336–385): max number of
devices, cumulative variable-field size, at most one recovery phrase —
checked in that order. -/
def check_anchor_invariants (devices : List Device) : Except AnchorError Unit :=
  if devices.length > MAX_DEVICES_PER_ANCHOR then
    .error (.TooManyDevices MAX_DEVICES_PER_ANCHOR devices.length)
  else
    let existing_variable_size := (devices.map Device.variable_fields_len).sum
    if existing_variable_size > VARIABLE_FIELDS_LIMIT then
      .error (.CumulativeDataLimitExceeded existing_variable_size VARIABLE_FIELDS_LIMIT)
    else if (devices.countP (fun d => d.key_type == KeyType.SeedPhrase)) > 1 then
      .error .MultipleRecoveryPhrases
    else
      .ok ()

/-- Rust `check_device_limits` (anchor.rs, lines 404–454): alias ≤ 64,
pubkey ≤ 300, credential_id ≤ 200, origin ≤ 50 — in that order. -/
def check_device_limits (device : Device) : Except AnchorError Unit :=
  if strLen device.alias_ > 64 then
    .error (.DeviceLimitExceeded "alias" (strLen device.alias_) 64)
  else if device.pubkey.length > 300 then
    .error (.DeviceLimitExceeded "pubkey" device.pubkey.length 300)
  else if ((device.credential_id.map List.length).getD 0) > 200 then
    .error (.DeviceLimitExceeded "credential_id" ((device.credential_id.map List.length).getD 0) 200)
  else if ((device.origin.map strLen).getD 0) > 50 then
    .error (.DeviceLimitExceeded "origin" ((device.origin.map strLen).getD 0) 50)
  else
    .ok ()

/-- Rust `check_device_invariants` (anchor.rs, lines 393–402): field limits,
then "only recovery phrases can be protected". -/
def check_device_invariants (device : Device) : Except AnchorError Unit :=
  match check_device_limits device with
  | .error e => .error e
  | .ok () =>
    if device.protection == DeviceProtection.Protected
        && device.key_type != KeyType.SeedPhrase then
      .error (.InvalidDeviceProtection device.key_type)
    else
      .ok ()

/-- Rust `check_mutation_allowed` (anchor.rs, lines 299–312); the ambient
`caller()` is passed explicitly. -/
def check_mutation_allowed (caller : Principal) (device : Device) : Except AnchorError Unit :=
  match device.protection with
  | DeviceProtection.Unprotected => .ok ()
  | DeviceProtection.Protected =>
    if caller != Principal.selfAuthenticating device.pubkey then
      .error (.MutationNotAllowed (Principal.selfAuthenticating device.pubkey) caller)
    else
      .ok ()

/-- Replace the first element satisfying `p` by `f` of it: the effect of
Rust's `self.devices[index] = …` / `iter_mut().find(…)` where `index` is the
first position matching. -/
def modifyFirst (p : Device → Bool) (f : Device → Device) : List Device → List Device
  | [] => []
  | d :: ds => if p d then f d :: ds else d :: modifyFirst p f ds

/-- Rust `Anchor::new` (anchor.rs, line 93). -/
def Anchor.new : Anchor := { devices := [] }

/-- Rust `Anchor::add_device` (anchor.rs, lines 97–107).  The returned pair
is (post state of `self`, result). -/
def Anchor.add_device (a : Anchor) (device : Device) : Anchor × Except AnchorError Unit :=
  if a.devices.any (fun e => e.pubkey == device.pubkey) then
    (a, .error (.DuplicateDevice device.pubkey))
  else
    match check_device_invariants device with
    | .error e => (a, .error e)
    | .ok () =>
      match check_anchor_invariants (a.devices ++ [device]) with
      | .error e => (a, .error e)
      | .ok () => ({ devices := a.devices ++ [device] }, .ok ())

/-- Rust `Anchor::remove_device` (anchor.rs, lines 113–124): resolve the
first device with the given key (`device_index` + `self.devices[index]`
becomes `find?`), check the mutation is allowed, then remove that device
(`devices.remove(index)` becomes `eraseP` of the first match).  No anchor
invariants are checked. -/
def Anchor.remove_device (a : Anchor) (device_key : DeviceKey) (caller : Principal) :
    Anchor × Except AnchorError Unit :=
  match a.devices.find? (fun e => e.pubkey == device_key) with
  | none => (a, .error (.NotFound device_key))
  | some d =>
    match check_mutation_allowed caller d with
    | .error e => (a, .error e)
    | .ok () => ({ devices := a.devices.eraseP (fun e => e.pubkey == device_key) }, .ok ())

/-- Rust `Anchor::modify_device` (anchor.rs, lines 126–150): key-immutability
check, device invariants on the replacement, resolve the existing device,
mutation-allowed check on it, anchor invariants on (devices without the key)
++ [replacement], then `self.devices[index] = modified_device`. -/
def Anchor.modify_device (a : Anchor) (device_key : DeviceKey) (modified_device : Device)
    (caller : Principal) : Anchor × Except AnchorError Unit :=
  if device_key != modified_device.pubkey then
    (a, .error .CannotModifyDeviceKey)
  else
    match check_device_invariants modified_device with
    | .error e => (a, .error e)
    | .ok () =>
      match a.devices.find? (fun e => e.pubkey == device_key) with
      | none => (a, .error (.NotFound device_key))
      | some existing =>
        match check_mutation_allowed caller existing with
        | .error e => (a, .error e)
        | .ok () =>
          match check_anchor_invariants
              (a.devices.filter (fun e => e.pubkey != device_key) ++ [modified_device]) with
          | .error e => (a, .error e)
          | .ok () =>
            ({ devices := modifyFirst (fun e => e.pubkey == device_key)
                (fun _ => modified_device) a.devices }, .ok ())

/-- Rust `Anchor::set_device_usage_timestamp` (anchor.rs, lines 178–188):
find the first device with the key and set its `last_usage_timestamp`. -/
def Anchor.set_device_usage_timestamp (a : Anchor) (device_key : DeviceKey) (time : Timestamp) :
    Anchor × Except AnchorError Unit :=
  match a.devices.find? (fun d => d.pubkey == device_key) with
  | none => (a, .error (.NotFound device_key))
  | some _ =>
    ({ devices := modifyFirst (fun d => d.pubkey == device_key)
        (fun d => { d with last_usage_timestamp := some time }) a.devices }, .ok ())

/-- Rust `DomainActivity` (anchor.rs, lines 255–266). -/
inductive DomainActivity where
  | None
  | NonIIDomain
  | Ic0App
  | InternetComputerOrg
  | BothIIDomains
deriving DecidableEq

/-- Modelled from the spec: the `IC0_APP_ORIGIN` constant (defined in the
crate root, outside the sources at hand) — the `identity.ic0.app` II origin. -/
def IC0_APP_ORIGIN : String := "https://identity.ic0.app"

/-- Modelled from the spec: the `INTERNETCOMPUTER_ORG_ORIGIN` constant
(defined in the crate root, outside the sources at hand) — the
`identity.internetcomputer.org` II origin. -/
def INTERNETCOMPUTER_ORG_ORIGIN : String := "https://identity.internetcomputer.org"

/-- The accumulator local to Rust `Anchor::domain_activity_since`. -/
structure Accumulator where
  ic0_app : Bool
  internet_computer_org : Bool
  non_ii : Bool
deriving DecidableEq

/-- One fold step of `domain_activity_since`: assign domain activity. -/
def domainStep (acc : Accumulator) (device : Device) : Accumulator :=
  match device.origin with
  | none => { acc with non_ii := true }
  | some origin =>
    if origin == IC0_APP_ORIGIN then { acc with ic0_app := true }
    else if origin == INTERNETCOMPUTER_ORG_ORIGIN then { acc with internet_computer_org := true }
    else { acc with non_ii := true }

/-- Rust `Anchor::domain_activity_since` (anchor.rs, lines 210–251). -/
def Anchor.domain_activity_since (a : Anchor) (timestamp : Timestamp) : DomainActivity :=
  let result :=
    (a.devices.filter (fun d => ((d.last_usage_timestamp.map
        (fun t => decide (timestamp ≤ t))).getD false))).foldl
      domainStep { ic0_app := false, internet_computer_org := false, non_ii := false }
  match result.ic0_app, result.internet_computer_org, result.non_ii with
  | true, true, _ => DomainActivity.BothIIDomains
  | true, false, _ => DomainActivity.Ic0App
  | false, true, _ => DomainActivity.InternetComputerOrg
  | false, false, true => DomainActivity.NonIIDomain
  | false, false, false => DomainActivity.None

/-- A tiny concrete device used by witnesses below. -/
def devA : Device :=
  { pubkey := [1]
    alias_ := "a"
    credential_id := none
    purpose := Purpose.authentication
    key_type := KeyType.Platform
    protection := DeviceProtection.Unprotected
    origin := none
    last_usage_timestamp := none }

example : Anchor.new.add_device devA = ({ devices := [devA] }, Except.ok ()) := by rfl

/-! ### Helper lemmas about the check functions -/

/-- The error of `check_device_limits` is always a `DeviceLimitExceeded`. -/
theorem check_device_limits_error_shape {d : Device} {e : AnchorError}
    (h : check_device_limits d = .error e) :
    ∃ f n l, e = AnchorError.DeviceLimitExceeded f n l := by
  unfold check_device_limits at h
  repeat' split at h
  all_goals first
    | exact Except.noConfusion h
    | (injection h with h1; exact ⟨_, _, _, h1.symm⟩)

/-- `check_device_invariants` never reports a duplicate device. -/
theorem check_device_invariants_no_dup {d : Device} {e : AnchorError}
    (h : check_device_invariants d = .error e) :
    ∀ k, e ≠ AnchorError.DuplicateDevice k := by
  unfold check_device_invariants at h
  split at h
  · rename_i e0 heq
    injection h with h1
    obtain ⟨f, n, l, hshape⟩ := check_device_limits_error_shape heq
    subst h1
    simp [hshape]
  · split at h
    · injection h with h1
      subst h1
      simp
    · exact Except.noConfusion h

/-- `check_anchor_invariants` never reports a duplicate device. -/
theorem check_anchor_invariants_no_dup {l : List Device} {e : AnchorError}
    (h : check_anchor_invariants l = .error e) :
    ∀ k, e ≠ AnchorError.DuplicateDevice k := by
  unfold check_anchor_invariants at h
  simp only [] at h
  repeat' split at h
  all_goals first
    | exact Except.noConfusion h
    | (injection h with h1; subst h1; simp)

/-- A device passing `check_device_invariants` obeys the protection rule:
only recovery phrases can be protected. -/
theorem check_device_invariants_protection {d : Device}
    (h : check_device_invariants d = .ok ())
    (hp : d.protection = DeviceProtection.Protected) :
    d.key_type = KeyType.SeedPhrase := by
  unfold check_device_invariants at h
  split at h
  · exact Except.noConfusion h
  · split at h
    · exact Except.noConfusion h
    · rename_i hcond
      simp only [Bool.and_eq_true, beq_iff_eq, bne_iff_ne, ne_eq, not_and, not_not] at hcond
      exact hcond hp

/-! ### Claim theorems -/

/-- Claim C10: converting a wire-level `DeviceData` to the internal `Device`
and back is the identity — `DeviceData::from(Device::from(d)) = d`; the only
field not carried by `DeviceData`, `last_usage_timestamp`, is initialized to
`None` by `Device::from`. -/
theorem deviceData_device_roundtrip (d : DeviceData) :
    DeviceData.ofDevice (Device.ofDeviceData d) = d := rfl

/-- Claim C3: atomicity on error — whenever `add_device`, `modify_device`,
`remove_device` or `set_device_usage_timestamp` returns an `Err`, the
anchor's device list is exactly the same as before the call. -/
theorem anchor_mutations_atomic_on_error (a : Anchor) :
    (∀ d a' e, a.add_device d = (a', .error e) → a' = a) ∧
    (∀ k d c a' e, a.modify_device k d c = (a', .error e) → a' = a) ∧
    (∀ k c a' e, a.remove_device k c = (a', .error e) → a' = a) ∧
    (∀ k t a' e, a.set_device_usage_timestamp k t = (a', .error e) → a' = a) := by
  refine ⟨?_, ?_, ?_, ?_⟩
  · intro d a' e h
    unfold Anchor.add_device at h
    repeat' split at h
    all_goals injection h with h1 h2
    all_goals first
      | exact h1.symm
      | exact Except.noConfusion h2
  · intro k d c a' e h
    unfold Anchor.modify_device at h
    repeat' split at h
    all_goals injection h with h1 h2
    all_goals first
      | exact h1.symm
      | exact Except.noConfusion h2
  · intro k c a' e h
    unfold Anchor.remove_device at h
    repeat' split at h
    all_goals injection h with h1 h2
    all_goals first
      | exact h1.symm
      | exact Except.noConfusion h2
  · intro k t a' e h
    unfold Anchor.set_device_usage_timestamp at h
    repeat' split at h
    all_goals injection h with h1 h2
    all_goals first
      | exact h1.symm
      | exact Except.noConfusion h2

/-- Witness for C3: each of the four operations, run on a concrete anchor
with a concrete failing input, leaves the anchor unchanged. -/
theorem anchor_mutations_atomic_on_error_witness :
    ((⟨[devA]⟩ : Anchor) = ⟨[devA]⟩) ∧ ((⟨[devA]⟩ : Anchor) = ⟨[devA]⟩) ∧
    ((⟨[devA]⟩ : Anchor) = ⟨[devA]⟩) ∧ ((⟨[devA]⟩ : Anchor) = ⟨[devA]⟩) :=
  ⟨(anchor_mutations_atomic_on_error ⟨[devA]⟩).1 devA ⟨[devA]⟩
      (AnchorError.DuplicateDevice [1]) (by decide),
   (anchor_mutations_atomic_on_error ⟨[devA]⟩).2.1 [9] devA (Principal.other 0) ⟨[devA]⟩
      AnchorError.CannotModifyDeviceKey (by decide),
   (anchor_mutations_atomic_on_error ⟨[devA]⟩).2.2.1 [9] (Principal.other 0) ⟨[devA]⟩
      (AnchorError.NotFound [9]) (by decide),
   (anchor_mutations_atomic_on_error ⟨[devA]⟩).2.2.2 [9] 5 ⟨[devA]⟩
      (AnchorError.NotFound [9]) (by decide)⟩

/-- Claim C2: `add_device(d)` returns `DuplicateDevice{d.pubkey}` exactly when
some existing device shares `d`'s pubkey; otherwise it propagates the result
of the device checks on `d` and of the anchor-invariant checks on the post
state `devices ++ [d]`, and on success appends `d` at the end. -/
theorem add_device_spec (a : Anchor) (d : Device) :
    ((a.add_device d).2 = .error (.DuplicateDevice d.pubkey) ↔
      ∃ e ∈ a.devices, e.pubkey = d.pubkey) ∧
    ((∀ e ∈ a.devices, e.pubkey ≠ d.pubkey) →
      (∀ er, check_device_invariants d = .error er → a.add_device d = (a, .error er)) ∧
      (check_device_invariants d = .ok () →
        (∀ er, check_anchor_invariants (a.devices ++ [d]) = .error er →
          a.add_device d = (a, .error er)) ∧
        (check_anchor_invariants (a.devices ++ [d]) = .ok () →
          a.add_device d = ({ devices := a.devices ++ [d] }, .ok ())))) := by
  have hany : (a.devices.any (fun e => e.pubkey == d.pubkey) = true) ↔
      ∃ e ∈ a.devices, e.pubkey = d.pubkey := by
    simp [List.any_eq_true]
  constructor
  · constructor
    · intro h
      rw [← hany]
      by_contra hno
      rw [Bool.not_eq_true] at hno
      unfold Anchor.add_device at h
      rw [if_neg (by simp [hno])] at h
      split at h
      · rename_i er heq
        simp only at h
        cases h
        exact check_device_invariants_no_dup heq d.pubkey rfl
      · rename_i heq
        split at h
        · rename_i er heq2
          simp only at h
          cases h
          exact check_anchor_invariants_no_dup heq2 d.pubkey rfl
        · simp only at h
          exact Except.noConfusion h
    · intro h
      unfold Anchor.add_device
      rw [if_pos (hany.mpr h)]
  · intro hno
    have hne : a.devices.any (fun e => e.pubkey == d.pubkey) = false := by
      rw [Bool.eq_false_iff]
      intro hc
      obtain ⟨e, he, hpk⟩ := hany.mp hc
      exact hno e he hpk
    refine ⟨?_, ?_⟩
    · intro er her
      unfold Anchor.add_device
      rw [if_neg (by simp [hne]), her]
    · intro hok
      refine ⟨?_, ?_⟩
      · intro er her
        unfold Anchor.add_device
        rw [if_neg (by simp [hne]), hok, her]
      · intro hinv
        unfold Anchor.add_device
        rw [if_neg (by simp [hne]), hok, hinv]

/-- Witness for C2: on a concrete anchor already holding `devA`, adding `devA`
again reports the duplicate; on the empty anchor, adding `devA` succeeds and
appends it. -/
theorem add_device_spec_witness :
    (((⟨[devA]⟩ : Anchor).add_device devA).2 = .error (.DuplicateDevice devA.pubkey)) ∧
    (Anchor.new.add_device devA = ({ devices := [] ++ [devA] }, .ok ())) :=
  ⟨(add_device_spec ⟨[devA]⟩ devA).1.mpr ⟨devA, by decide, rfl⟩,
   (((add_device_spec Anchor.new devA).2 (by simp [Anchor.new])).2 (by decide)).2 (by decide)⟩

/-! ### Claim C9: domain activity -/

/-- Spec-side predicate: the device was active on `identity.ic0.app`. -/
def isIc0Active (d : Device) : Bool :=
  match d.origin with
  | some o => o == IC0_APP_ORIGIN
  | none => false

/-- Spec-side predicate: the device was active on
`identity.internetcomputer.org`. -/
def isOrgActive (d : Device) : Bool :=
  match d.origin with
  | some o => o == INTERNETCOMPUTER_ORG_ORIGIN
  | none => false

/-- Spec-side predicate: non-II activity — the device has no origin at all,
or an origin that is neither II domain. -/
def isNonIIActive (d : Device) : Bool :=
  match d.origin with
  | some o => !(o == IC0_APP_ORIGIN) && !(o == INTERNETCOMPUTER_ORG_ORIGIN)
  | none => true

/-- Spec-side formulation of `domain_activity_since`, written from the
spec's words: consider exactly the devices whose `last_usage_timestamp` is
set and ≥ t; any II-domain activity causes non-II activity to be dropped;
a device with no origin counts as non-II activity. -/
def domain_activity_spec (a : Anchor) (t : Timestamp) : DomainActivity :=
  let active := a.devices.filter fun d =>
    match d.last_usage_timestamp with
    | some u => decide (t ≤ u)
    | none => false
  if active.any isIc0Active && active.any isOrgActive then DomainActivity.BothIIDomains
  else if active.any isIc0Active then DomainActivity.Ic0App
  else if active.any isOrgActive then DomainActivity.InternetComputerOrg
  else if active.any isNonIIActive then DomainActivity.NonIIDomain
  else DomainActivity.None

/-- The fold of `domain_activity_since` computes exactly the three
existential flags. -/
theorem domainStep_foldl (l : List Device) (acc : Accumulator) :
    l.foldl domainStep acc =
      { ic0_app := acc.ic0_app || l.any isIc0Active
        internet_computer_org := acc.internet_computer_org || l.any isOrgActive
        non_ii := acc.non_ii || l.any isNonIIActive } := by
  induction l generalizing acc with
  | nil => simp
  | cons d ds ih =>
    rw [List.foldl_cons, ih]
    unfold domainStep isIc0Active isOrgActive isNonIIActive
    cases hor : d.origin with
    | none => simp [hor, Bool.or_assoc]
    | some o =>
      simp only [hor, List.any_cons]
      split
      · rename_i h1
        have ho : o = IC0_APP_ORIGIN := by simpa using h1
        subst ho
        have h2 : (IC0_APP_ORIGIN == INTERNETCOMPUTER_ORG_ORIGIN) = false := by decide
        simp [h1, h2, Bool.or_assoc]
      · rename_i h1
        rw [Bool.not_eq_true] at h1
        split
        · rename_i h2
          simp [h1, h2, Bool.or_assoc]
        · rename_i h2
          rw [Bool.not_eq_true] at h2
          simp [h1, h2, Bool.or_assoc]

/-- Claim C9: `domain_activity_since(t)` considers exactly the devices whose
`last_usage_timestamp` is set and ≥ t, and folds their origins into one of
the five outcomes; a device with no origin counts as non-II activity, and any
activity on an II domain (`identity.ic0.app` or
`identity.internetcomputer.org`) causes non-II activity to be dropped. -/
theorem domain_activity_since_correct (a : Anchor) (t : Timestamp) :
    a.domain_activity_since t = domain_activity_spec a t := by
  unfold Anchor.domain_activity_since domain_activity_spec
  simp only []
  have hfilt : (fun (d : Device) =>
      ((d.last_usage_timestamp.map (fun u => decide (t ≤ u))).getD false)) =
      (fun (d : Device) => match d.last_usage_timestamp with
        | some u => decide (t ≤ u)
        | none => false) := by
    funext d
    cases d.last_usage_timestamp <;> rfl
  rw [hfilt]
  rw [domainStep_foldl]
  cases h1 : (List.filter (fun d => match d.last_usage_timestamp with
      | some u => decide (t ≤ u)
      | none => false) a.devices).any isIc0Active <;>
    cases h2 : (List.filter (fun d => match d.last_usage_timestamp with
      | some u => decide (t ≤ u)
      | none => false) a.devices).any isOrgActive <;>
    cases h3 : (List.filter (fun d => match d.last_usage_timestamp with
      | some u => decide (t ≤ u)
      | none => false) a.devices).any isNonIIActive <;>
    simp [h1, h2, h3]

/-! ### Success characterizations of the four mutating operations -/

/-- A successful `add_device` appends the device; the pubkey was fresh and
both check functions passed. -/
theorem add_device_ok {a a' : Anchor} {d : Device}
    (h : a.add_device d = (a', .ok ())) :
    a'.devices = a.devices ++ [d] ∧ (∀ e ∈ a.devices, e.pubkey ≠ d.pubkey) ∧
    check_device_invariants d = .ok () ∧
    check_anchor_invariants (a.devices ++ [d]) = .ok () := by
  unfold Anchor.add_device at h
  split at h
  · injection h with h1 h2
    exact Except.noConfusion h2
  · rename_i hdup
    split at h
    · injection h with h1 h2
      exact Except.noConfusion h2
    · rename_i hdev
      split at h
      · injection h with h1 h2
        exact Except.noConfusion h2
      · rename_i hanch
        injection h with h1 h2
        refine ⟨by rw [← h1], ?_, hdev, hanch⟩
        intro e he hpk
        exact hdup (List.any_eq_true.mpr ⟨e, he, by simp [hpk]⟩)

/-- A successful `modify_device` requires the key to equal the new pubkey,
all checks to pass, and replaces the first device with that key. -/
theorem modify_device_ok {a a' : Anchor} {k : DeviceKey} {d : Device} {c : Principal}
    (h : a.modify_device k d c = (a', .ok ())) :
    k = d.pubkey ∧ check_device_invariants d = .ok () ∧
    (∃ ex, a.devices.find? (fun e => e.pubkey == k) = some ex ∧
      check_mutation_allowed c ex = .ok ()) ∧
    check_anchor_invariants (a.devices.filter (fun e => e.pubkey != k) ++ [d]) = .ok () ∧
    a'.devices = modifyFirst (fun e => e.pubkey == k) (fun _ => d) a.devices := by
  unfold Anchor.modify_device at h
  split at h
  · injection h with h1 h2
    exact Except.noConfusion h2
  · rename_i hkey
    split at h
    · injection h with h1 h2
      exact Except.noConfusion h2
    · rename_i hdev
      split at h
      · injection h with h1 h2
        exact Except.noConfusion h2
      · rename_i ex hfind
        split at h
        · injection h with h1 h2
          exact Except.noConfusion h2
        · rename_i hmut
          split at h
          · injection h with h1 h2
            exact Except.noConfusion h2
          · rename_i hanch
            injection h with h1 h2
            exact ⟨by simpa using hkey, hdev, ⟨ex, hfind, hmut⟩, hanch, by rw [← h1]⟩

/-- A successful `remove_device` erases the first device with the key, which
existed and allowed the mutation. -/
theorem remove_device_ok {a a' : Anchor} {k : DeviceKey} {c : Principal}
    (h : a.remove_device k c = (a', .ok ())) :
    (∃ ex, a.devices.find? (fun e => e.pubkey == k) = some ex ∧
      check_mutation_allowed c ex = .ok ()) ∧
    a'.devices = a.devices.eraseP (fun e => e.pubkey == k) := by
  unfold Anchor.remove_device at h
  split at h
  · injection h with h1 h2
    exact Except.noConfusion h2
  · rename_i ex hfind
    split at h
    · injection h with h1 h2
      exact Except.noConfusion h2
    · rename_i hmut
      injection h with h1 h2
      exact ⟨⟨ex, hfind, hmut⟩, by rw [← h1]⟩

/-- A successful `set_device_usage_timestamp` only updates the timestamp of
the first device with the key. -/
theorem set_device_usage_timestamp_ok {a a' : Anchor} {k : DeviceKey} {t : Timestamp}
    (h : a.set_device_usage_timestamp k t = (a', .ok ())) :
    a'.devices = modifyFirst (fun d => d.pubkey == k)
      (fun d => { d with last_usage_timestamp := some t }) a.devices := by
  unfold Anchor.set_device_usage_timestamp at h
  split at h
  · injection h with h1 h2
    exact Except.noConfusion h2
  · injection h with h1 h2
    rw [← h1]

/-! ### Lemmas about `modifyFirst` -/

/-- `modifyFirst` leaves any projection invariant when the update preserves
it on matching elements. -/
theorem modifyFirst_map {α : Type} {p : Device → Bool} {f : Device → Device} {g : Device → α}
    (hf : ∀ x, p x = true → g (f x) = g x) :
    ∀ l : List Device, (modifyFirst p f l).map g = l.map g := by
  intro l
  induction l with
  | nil => rfl
  | cons d ds ih =>
    unfold modifyFirst
    split
    · rename_i hp
      simp [hf d hp]
    · simp [ih]

/-- Members of `modifyFirst p f l` are members of `l` or the image under `f`
of a matching member of `l`. -/
theorem mem_modifyFirst {p : Device → Bool} {f : Device → Device} {x : Device} :
    ∀ {l : List Device}, x ∈ modifyFirst p f l →
      x ∈ l ∨ ∃ y ∈ l, p y = true ∧ x = f y := by
  intro l
  induction l with
  | nil => intro h; exact absurd h (List.not_mem_nil x)
  | cons d ds ih =>
    intro h
    unfold modifyFirst at h
    split at h
    · rename_i hp
      rcases List.mem_cons.mp h with h1 | h2
      · exact Or.inr ⟨d, List.mem_cons_self d ds, hp, h1⟩
      · exact Or.inl (List.mem_cons_of_mem d h2)
    · rcases List.mem_cons.mp h with h1 | h2
      · exact Or.inl (h1 ▸ List.mem_cons_self d ds)
      · rcases ih h2 with h3 | ⟨y, hy, hpy, hxy⟩
        · exact Or.inl (List.mem_cons_of_mem d h3)
        · exact Or.inr ⟨y, List.mem_cons_of_mem d hy, hpy, hxy⟩

/-! ### Reachable anchors and their invariants -/

/-- The anchors reachable from the empty anchor (`Anchor::new`) by any
sequence of successful public operations; failed operations leave the anchor
unchanged (see the atomicity theorem), so only successful steps matter. -/
inductive Reachable : Anchor → Prop
  | new : Reachable Anchor.new
  | add_device {a a' : Anchor} {d : Device} :
      Reachable a → a.add_device d = (a', .ok ()) → Reachable a'
  | modify_device {a a' : Anchor} {k : DeviceKey} {d : Device} {c : Principal} :
      Reachable a → a.modify_device k d c = (a', .ok ()) → Reachable a'
  | remove_device {a a' : Anchor} {k : DeviceKey} {c : Principal} :
      Reachable a → a.remove_device k c = (a', .ok ()) → Reachable a'
  | set_device_usage_timestamp {a a' : Anchor} {k : DeviceKey} {t : Timestamp} :
      Reachable a → a.set_device_usage_timestamp k t = (a', .ok ()) → Reachable a'

/-- Invariants maintained by every reachable anchor: pubkeys are distinct and
only recovery phrases are protected. -/
theorem reachable_inv {a : Anchor} (h : Reachable a) :
    (a.devices.map Device.pubkey).Nodup ∧
    ∀ d ∈ a.devices, d.protection = DeviceProtection.Protected →
      d.key_type = KeyType.SeedPhrase := by
  induction h with
  | new => exact ⟨List.nodup_nil, by intro d hd; exact absurd hd (List.not_mem_nil d)⟩
  | add_device hr hstep ih =>
    obtain ⟨hdevs, hfresh, hdev, _⟩ := add_device_ok hstep
    constructor
    · rw [hdevs, List.map_append, List.nodup_append]
      refine ⟨ih.1, List.nodup_singleton _, ?_⟩
      intro x hx
      obtain ⟨e, he, hex⟩ := List.mem_map.mp hx
      simp only [List.map_cons, List.map_nil, List.mem_singleton]
      intro hc
      exact hfresh e he (by rw [hex, hc])
    · intro d hd hp
      rw [hdevs] at hd
      rcases List.mem_append.mp hd with h1 | h2
      · exact ih.2 d h1 hp
      · rw [List.mem_singleton.mp h2]
        exact check_device_invariants_protection hdev
          (by rw [← List.mem_singleton.mp h2]; exact hp)
  | modify_device hr hstep ih =>
    obtain ⟨hk, hdev, _, _, hdevs⟩ := modify_device_ok hstep
    constructor
    · rw [hdevs, modifyFirst_map (g := Device.pubkey)]
      · exact ih.1
      · intro x hx
        rw [eq_of_beq hx]
        exact hk.symm
    · intro d hd hp
      rw [hdevs] at hd
      rcases mem_modifyFirst hd with h1 | ⟨y, hy, hpy, hxy⟩
      · exact ih.2 d h1 hp
      · rw [hxy]
        rw [hxy] at hp
        exact check_device_invariants_protection hdev hp
  | remove_device hr hstep ih =>
    obtain ⟨_, hdevs⟩ := remove_device_ok hstep
    constructor
    · rw [hdevs]
      exact ih.1.sublist (List.Sublist.map _ (List.eraseP_sublist _))
    · intro d hd hp
      rw [hdevs] at hd
      exact ih.2 d (List.mem_of_mem_eraseP hd) hp
  | set_device_usage_timestamp hr hstep ih =>
    have hdevs := set_device_usage_timestamp_ok hstep
    constructor
    · rw [hdevs, modifyFirst_map (g := Device.pubkey)]
      · exact ih.1
      · intro x hx
        rfl
    · intro d hd hp
      rw [hdevs] at hd
      rcases mem_modifyFirst hd with h1 | ⟨y, hy, hpy, hxy⟩
      · exact ih.2 d h1 hp
      · rw [hxy]
        rw [hxy] at hp
        exact ih.2 y hy hp

/-- Claim C1: every anchor reachable from the empty anchor by any sequence of
successful `add_device`, `modify_device`, `remove_device` and
`set_device_usage_timestamp` steps has pairwise-distinct device pubkeys —
guaranteed by `add_device`'s duplicate check and `modify_device`'s
key-immutability check, with no uniqueness check in
`check_anchor_invariants`. -/
theorem reachable_pubkeys_distinct (a : Anchor) (h : Reachable a) :
    a.devices.Pairwise (fun x y => x.pubkey ≠ y.pubkey) := by
  have hn := (reachable_inv h).1
  rw [List.Nodup, List.pairwise_map] at hn
  exact hn

/-- Witness for C1: the anchor obtained by one successful `add_device` on the
empty anchor has pairwise-distinct pubkeys. -/
theorem reachable_pubkeys_distinct_witness :
    List.Pairwise (fun x y : Device => x.pubkey ≠ y.pubkey)
      (({ devices := [devA] } : Anchor).devices) :=
  reachable_pubkeys_distinct { devices := [devA] }
    (Reachable.add_device (d := devA) Reachable.new (by decide))

/-! ### Claim C6: caller enforcement -/

/-- A device with protection `Protected` but key type `Platform`; such a
device cannot be added through the public operations, but nothing prevents it
from sitting in a stored anchor. -/
def devProtPlatform : Device :=
  { pubkey := [7]
    alias_ := "p"
    credential_id := none
    purpose := Purpose.authentication
    key_type := KeyType.Platform
    protection := DeviceProtection.Protected
    origin := none
    last_usage_timestamp := none }

/-- A protected recovery-phrase device. -/
def devSeedProt : Device :=
  { pubkey := [3]
    alias_ := "s"
    credential_id := none
    purpose := Purpose.recovery
    key_type := KeyType.SeedPhrase
    protection := DeviceProtection.Protected
    origin := none
    last_usage_timestamp := none }

/-- Counterexample to C6: `check_mutation_allowed` looks only at
`protection`, so a `Protected` device whose key type is `Platform` — not
`SeedPhrase` — IS caller-enforced: `remove_device` on an anchor holding it
rejects a foreign caller with `MutationNotAllowed`, contradicting
"devices of any other protection/key_type combination are never
caller-enforced". -/
theorem check_mutation_allowed_counterexample :
    devProtPlatform.key_type ≠ KeyType.SeedPhrase ∧
    (⟨[devProtPlatform]⟩ : Anchor).remove_device devProtPlatform.pubkey (Principal.other 0) =
      (⟨[devProtPlatform]⟩, .error (.MutationNotAllowed
        (Principal.selfAuthenticating devProtPlatform.pubkey) (Principal.other 0))) := by
  decide

/-- Claim C6 (amended): `check_mutation_allowed` rejects with
`MutationNotAllowed` iff the device's protection is `Protected` and the
caller is not the self-authenticating principal of its pubkey — the device's
`key_type` is not consulted; on anchors reachable via the public operations
every `Protected` device has key type `SeedPhrase`, so on those anchors the
enforced class coincides with `Protected + SeedPhrase`. -/
theorem check_mutation_allowed_spec (d : Device) (c : Principal) :
    (check_mutation_allowed c d =
        .error (.MutationNotAllowed (Principal.selfAuthenticating d.pubkey) c) ↔
      d.protection = DeviceProtection.Protected ∧
        c ≠ Principal.selfAuthenticating d.pubkey) ∧
    (check_mutation_allowed c d = .ok () ↔
      d.protection = DeviceProtection.Unprotected ∨
        c = Principal.selfAuthenticating d.pubkey) ∧
    (∀ a : Anchor, Reachable a → d ∈ a.devices →
      d.protection = DeviceProtection.Protected → d.key_type = KeyType.SeedPhrase) := by
  refine ⟨?_, ?_, ?_⟩
  · unfold check_mutation_allowed
    cases hprot : d.protection
    · simp
    · by_cases hc : c = Principal.selfAuthenticating d.pubkey <;> simp [hc]
  · unfold check_mutation_allowed
    cases hprot : d.protection
    · simp
    · by_cases hc : c = Principal.selfAuthenticating d.pubkey <;> simp [hc]
  · intro a hr hd hp
    exact (reachable_inv hr).2 d hd hp

/-- Witness for the amended C6: a protected seed-phrase device inside a
reachable anchor, with a foreign caller. -/
theorem check_mutation_allowed_spec_witness :
    devSeedProt.key_type = KeyType.SeedPhrase :=
  (check_mutation_allowed_spec devSeedProt (Principal.other 0)).2.2
    { devices := [devSeedProt] }
    (Reachable.add_device (d := devSeedProt) Reachable.new (by decide))
    (by decide) (by decide)

/-! ### Claim C5: remove_device -/

/-- `check_mutation_allowed` passes when the device is unprotected or the
caller is the device's self-authenticating principal. -/
theorem check_mutation_allowed_ok {c : Principal} {ex : Device}
    (h : ex.protection = DeviceProtection.Unprotected ∨
      c = Principal.selfAuthenticating ex.pubkey) :
    check_mutation_allowed c ex = .ok () := by
  unfold check_mutation_allowed
  cases hp : ex.protection
  · rfl
  · rcases h with h | h
    · rw [hp] at h
      exact absurd h (by simp)
    · rw [h]
      simp

/-- Two unprotected recovery-phrase devices: an anchor holding both violates
the one-recovery-phrase invariant and can only come from pre-existing
storage. -/
def devSeed1 : Device :=
  { pubkey := [4]
    alias_ := "r"
    credential_id := none
    purpose := Purpose.recovery
    key_type := KeyType.SeedPhrase
    protection := DeviceProtection.Unprotected
    origin := none
    last_usage_timestamp := none }

/-- Second unprotected recovery-phrase device. -/
def devSeed2 : Device :=
  { pubkey := [5]
    alias_ := "t"
    credential_id := none
    purpose := Purpose.recovery
    key_type := KeyType.SeedPhrase
    protection := DeviceProtection.Unprotected
    origin := none
    last_usage_timestamp := none }

/-- Claim C5: `remove_device(key)` fails `NotFound` when no device has the
key; fails `MutationNotAllowed` when the resolved device is `Protected` and
the caller is not its self-authenticating principal; otherwise removes that
device with no anchor-invariant recheck — in particular on an anchor carrying
two `SeedPhrase` devices, removing one succeeds and leaves exactly one. -/
theorem remove_device_spec (a : Anchor) (k : DeviceKey) (c : Principal) :
    ((∀ e ∈ a.devices, e.pubkey ≠ k) →
      a.remove_device k c = (a, .error (.NotFound k))) ∧
    (∀ ex, a.devices.find? (fun e => e.pubkey == k) = some ex →
      (ex.protection = DeviceProtection.Protected →
        c ≠ Principal.selfAuthenticating ex.pubkey →
        a.remove_device k c = (a, .error (.MutationNotAllowed
          (Principal.selfAuthenticating ex.pubkey) c))) ∧
      ((ex.protection = DeviceProtection.Unprotected ∨
          c = Principal.selfAuthenticating ex.pubkey) →
        a.remove_device k c =
          ({ devices := a.devices.eraseP (fun e => e.pubkey == k) }, .ok ()) ∧
        (ex.key_type = KeyType.SeedPhrase →
          a.devices.countP (fun d => d.key_type == KeyType.SeedPhrase) = 2 →
          ((a.remove_device k c).1.devices.countP
            (fun d => d.key_type == KeyType.SeedPhrase)) = 1))) := by
  refine ⟨?_, ?_⟩
  · intro hno
    unfold Anchor.remove_device
    rw [List.find?_eq_none.mpr (fun x hx => by simp [hno x hx])]
  · intro ex hfind
    constructor
    · intro hp hc
      have hmut : check_mutation_allowed c ex =
          .error (.MutationNotAllowed (Principal.selfAuthenticating ex.pubkey) c) := by
        unfold check_mutation_allowed
        rw [hp]
        simp [hc]
      simp only [Anchor.remove_device, hfind, hmut]
    · intro hallow
      have hmut := check_mutation_allowed_ok hallow
      have hrem : a.remove_device k c =
          ({ devices := a.devices.eraseP (fun e => e.pubkey == k) }, .ok ()) := by
        simp only [Anchor.remove_device, hfind, hmut]
      refine ⟨hrem, ?_⟩
      intro hseed hcount
      obtain ⟨hpex, as, bs, hsplit, hall⟩ := List.find?_eq_some.mp hfind
      have hc1 : List.countP (fun d => d.key_type == KeyType.SeedPhrase) (ex :: bs) =
          List.countP (fun d => d.key_type == KeyType.SeedPhrase) bs + 1 :=
        List.countP_cons_of_pos _ _ (by simp [hseed])
      rw [hsplit, List.countP_append, hc1] at hcount
      have he1 : List.eraseP (fun e => e.pubkey == k) (ex :: bs) = bs :=
        List.eraseP_cons_of_pos hpex
      have heq : a.devices.eraseP (fun e => e.pubkey == k) = as ++ bs := by
        rw [hsplit,
          List.eraseP_append_right _ (fun b hb => by simpa using hall b hb), he1]
      rw [hrem]
      show (a.devices.eraseP (fun e => e.pubkey == k)).countP
        (fun d => d.key_type == KeyType.SeedPhrase) = 1
      rw [heq, List.countP_append]
      omega

/-- Witness for C5: on a (storage-only) anchor with two recovery phrases,
removing one succeeds and leaves exactly one. -/
theorem remove_device_spec_witness :
    (⟨[devSeed1, devSeed2]⟩ : Anchor).remove_device devSeed1.pubkey (Principal.other 0) =
      ({ devices := [devSeed1, devSeed2].eraseP (fun e => e.pubkey == devSeed1.pubkey) },
        .ok ()) ∧
    ((⟨[devSeed1, devSeed2]⟩ : Anchor).remove_device devSeed1.pubkey
      (Principal.other 0)).1.devices.countP
        (fun d => d.key_type == KeyType.SeedPhrase) = 1 := by
  have h := ((remove_device_spec ⟨[devSeed1, devSeed2]⟩ devSeed1.pubkey
      (Principal.other 0)).2 devSeed1 (by decide)).2 (Or.inl (by decide))
  exact ⟨h.1, h.2 (by decide) (by decide)⟩

/-! ### Claim C4: modify_device -/

/-- `check_anchor_invariants` only depends on the multiset of devices: it is
invariant under permutation. -/
theorem check_anchor_invariants_perm {l₁ l₂ : List Device} (h : l₁.Perm l₂) :
    check_anchor_invariants l₁ = check_anchor_invariants l₂ := by
  unfold check_anchor_invariants
  simp only []
  rw [h.length_eq, (h.map Device.variable_fields_len).sum_eq, h.countP_eq]

/-- `modifyFirst` on a list decomposed at the first match replaces exactly
that element. -/
theorem modifyFirst_append {p : Device → Bool} {f : Device → Device} {ex : Device}
    (bs : List Device) (hex : p ex = true) :
    ∀ as : List Device, (∀ b ∈ as, p b = false) →
      modifyFirst p f (as ++ ex :: bs) = as ++ f ex :: bs := by
  intro as
  induction as with
  | nil =>
    intro h
    simp [modifyFirst, hex]
  | cons x xs ih =>
    intro h
    have hx : p x = false := h x (List.mem_cons_self x xs)
    simp [modifyFirst, hx, ih (fun b hb => h b (List.mem_cons_of_mem x hb))]

/-- On an anchor with distinct pubkeys, the list `modify_device` checks
(`filter (pubkey ≠ key) ++ [new]`) is a permutation of the post state
(`first device under key replaced by new`). -/
theorem modify_checked_perm {l : List Device} {k : DeviceKey} {d ex : Device}
    (hdist : l.Pairwise (fun x y => x.pubkey ≠ y.pubkey))
    (hfind : l.find? (fun e => e.pubkey == k) = some ex) :
    (l.filter (fun e => e.pubkey != k) ++ [d]).Perm
      (modifyFirst (fun e => e.pubkey == k) (fun _ => d) l) := by
  obtain ⟨hpex, as, bs, hsplit, hall⟩ := List.find?_eq_some.mp hfind
  subst hsplit
  have hkex : ex.pubkey = k := by simpa using hpex
  have hbs : ∀ y ∈ bs, (y.pubkey == k) = false := by
    have hp2 : (ex :: bs).Pairwise (fun x y => x.pubkey ≠ y.pubkey) :=
      hdist.sublist (List.sublist_append_right as (ex :: bs))
    intro y hy
    have hne := (List.pairwise_cons.mp hp2).1 y hy
    rw [hkex] at hne
    simp [Ne.symm hne]
  have has : ∀ b ∈ as, (b.pubkey == k) = false := by
    intro b hb
    simpa using hall b hb
  have h1 : as.filter (fun e => e.pubkey != k) = as :=
    List.filter_eq_self.mpr (fun b hb => by simp [bne, has b hb])
  have h2 : (ex :: bs).filter (fun e => e.pubkey != k) = bs := by
    have hexp : ((fun e => e.pubkey != k) ex) = false := by simp [bne, hpex]
    rw [List.filter_cons_of_neg (by simp [hexp]),
      List.filter_eq_self.mpr (fun y hy => by simp [bne, hbs y hy])]
  have hfilter : (as ++ ex :: bs).filter (fun e => e.pubkey != k) = as ++ bs := by
    rw [List.filter_append, h1, h2]
  have hmod : modifyFirst (fun e => e.pubkey == k) (fun _ => d) (as ++ ex :: bs) =
      as ++ d :: bs :=
    modifyFirst_append bs hpex as has
  rw [hfilter, hmod, List.append_assoc]
  exact List.Perm.append_left as (List.perm_append_singleton d bs)

/-- Claim C4: `modify_device(key, new)` fails `CannotModifyDeviceKey` whenever
`new.pubkey ≠ key`; otherwise it propagates the device checks on `new`, then
the caller check on the existing device resolved under `key` in the
pre-mutation list, then the anchor-invariant check on the post state (the
device under `key` replaced by `new` — the code checks a permutation of it),
and on success stores `new` at that device's position. -/
theorem modify_device_spec (a : Anchor) (k : DeviceKey) (d : Device) (c : Principal)
    (hdist : a.devices.Pairwise (fun x y => x.pubkey ≠ y.pubkey)) :
    (k ≠ d.pubkey → a.modify_device k d c = (a, .error .CannotModifyDeviceKey)) ∧
    (k = d.pubkey →
      (∀ er, check_device_invariants d = .error er →
        a.modify_device k d c = (a, .error er)) ∧
      (check_device_invariants d = .ok () →
        ∀ ex, a.devices.find? (fun e => e.pubkey == k) = some ex →
          (∀ er, check_mutation_allowed c ex = .error er →
            a.modify_device k d c = (a, .error er)) ∧
          (check_mutation_allowed c ex = .ok () →
            (∀ er, check_anchor_invariants
                (modifyFirst (fun e => e.pubkey == k) (fun _ => d) a.devices) = .error er →
              a.modify_device k d c = (a, .error er)) ∧
            (check_anchor_invariants
                (modifyFirst (fun e => e.pubkey == k) (fun _ => d) a.devices) = .ok () →
              a.modify_device k d c =
                ({ devices := modifyFirst (fun e => e.pubkey == k) (fun _ => d) a.devices },
                  .ok ()))))) := by
  constructor
  · intro hne
    have hb : (k != d.pubkey) = true := by simpa using hne
    simp [Anchor.modify_device, hb]
  · intro hk
    have hb : (k != d.pubkey) = false := by simp [bne, hk]
    constructor
    · intro er her
      simp [Anchor.modify_device, hb, her]
    · intro hdev ex hfind
      have hchk := check_anchor_invariants_perm (modify_checked_perm (d := d) hdist hfind)
      constructor
      · intro er hmut
        simp [Anchor.modify_device, hb, hdev, hfind, hmut]
      · intro hmut
        constructor
        · intro er hanch
          rw [← hchk] at hanch
          simp [Anchor.modify_device, hb, hdev, hfind, hmut, hanch]
        · intro hanch
          rw [← hchk] at hanch
          simp [Anchor.modify_device, hb, hdev, hfind, hmut, hanch]

/-- A renamed variant of `devA`: same pubkey, different alias. -/
def devA2 : Device :=
  { pubkey := [1]
    alias_ := "b"
    credential_id := none
    purpose := Purpose.authentication
    key_type := KeyType.Platform
    protection := DeviceProtection.Unprotected
    origin := none
    last_usage_timestamp := none }

/-- Witness for C4: renaming `devA` to `devA2` (same pubkey) on a concrete
anchor succeeds and stores the replacement in place. -/
theorem modify_device_spec_witness :
    (⟨[devA]⟩ : Anchor).modify_device [1] devA2 (Principal.other 0) =
      ({ devices := modifyFirst (fun e => e.pubkey == [1]) (fun _ => devA2) [devA] },
        .ok ()) :=
  ((((modify_device_spec ⟨[devA]⟩ [1] devA2 (Principal.other 0)
      (by decide)).2 (by decide)).2 (by decide) devA (by decide)).2 (by decide)).2 (by decide)

/-! ### Claims C7, C8: device count and recovery-phrase caps -/

/-- With a fresh pubkey, `add_device` runs the two check functions and
appends on success. -/
theorem add_device_run {a : Anchor} {d : Device}
    (hno : ∀ e ∈ a.devices, e.pubkey ≠ d.pubkey) :
    a.add_device d =
      (match check_device_invariants d with
       | .error e => (a, .error e)
       | .ok () =>
         match check_anchor_invariants (a.devices ++ [d]) with
         | .error e => (a, .error e)
         | .ok () => ({ devices := a.devices ++ [d] }, .ok ())) := by
  have hany : (a.devices.any fun e => e.pubkey == d.pubkey) = false := by
    rw [Bool.eq_false_iff]
    intro hc
    obtain ⟨e, he, hpk⟩ := List.any_eq_true.mp hc
    exact hno e he (by simpa using hpk)
  simp [Anchor.add_device, hany]

/-- A device list passing `check_anchor_invariants` has at most 10 devices,
at most 2348 bytes of variable fields, and at most one recovery phrase. -/
theorem check_anchor_invariants_ok {l : List Device}
    (h : check_anchor_invariants l = .ok ()) :
    l.length ≤ 10 ∧ (l.map Device.variable_fields_len).sum ≤ 2348 ∧
    l.countP (fun d => d.key_type == KeyType.SeedPhrase) ≤ 1 := by
  unfold check_anchor_invariants MAX_DEVICES_PER_ANCHOR VARIABLE_FIELDS_LIMIT at h
  simp only [] at h
  repeat' split at h
  all_goals first
    | exact Except.noConfusion h
    | omega

/-- Claim C7: every anchor holds at most 10 devices — on an anchor already
holding 10 devices, adding any fresh device that passes the device checks
fails with `TooManyDevices`, and no successful `add_device` or
`modify_device` yields a device list longer than 10. -/
theorem max_devices_spec (a : Anchor) (d : Device) :
    (a.devices.length = 10 → (∀ e ∈ a.devices, e.pubkey ≠ d.pubkey) →
      check_device_invariants d = .ok () →
      a.add_device d = (a, .error (.TooManyDevices 10 11))) ∧
    (∀ a', a.add_device d = (a', .ok ()) → a'.devices.length ≤ 10) ∧
    (a.devices.Pairwise (fun x y => x.pubkey ≠ y.pubkey) →
      ∀ k c a', a.modify_device k d c = (a', .ok ()) → a'.devices.length ≤ 10) := by
  refine ⟨?_, ?_, ?_⟩
  · intro hlen hno hdev
    have h11 : (a.devices ++ [d]).length = 11 := by simp [hlen]
    have hanch : check_anchor_invariants (a.devices ++ [d]) =
        .error (.TooManyDevices 10 11) := by
      unfold check_anchor_invariants MAX_DEVICES_PER_ANCHOR
      rw [h11]
      simp
    simp only [add_device_run hno, hdev, hanch]
  · intro a' h
    obtain ⟨hdevs, _, _, hanch⟩ := add_device_ok h
    rw [hdevs]
    exact (check_anchor_invariants_ok hanch).1
  · intro hdist k c a' h
    obtain ⟨hk, hdev, ⟨ex, hfind, hmut⟩, hanch, hdevs⟩ := modify_device_ok h
    have hperm := modify_checked_perm (d := d) hdist hfind
    rw [hdevs, ← hperm.length_eq]
    exact (check_anchor_invariants_ok hanch).1

/-- A minimal authentication device with pubkey `[n]`. -/
def mkDev (n : Nat) : Device :=
  { pubkey := [n]
    alias_ := ""
    credential_id := none
    purpose := Purpose.authentication
    key_type := KeyType.Platform
    protection := DeviceProtection.Unprotected
    origin := none
    last_usage_timestamp := none }

/-- A concrete anchor with exactly 10 devices. -/
def anchor10 : Anchor := { devices := (List.range 10).map mkDev }

/-- Witness for C7: adding an 11th device to a full concrete anchor fails
with `TooManyDevices`. -/
theorem max_devices_spec_witness :
    anchor10.add_device (mkDev 10) = (anchor10, .error (.TooManyDevices 10 11)) :=
  (max_devices_spec anchor10 (mkDev 10)).1 (by decide) (by decide) (by decide)

/-- A concrete anchor with 10 devices, one of which is a recovery phrase. -/
def anchor10seed : Anchor :=
  { devices := devSeed1 :: (List.range 9).map (fun n => mkDev (n + 100)) }

/-- Counterexample to C8: on a full anchor that contains one recovery phrase,
adding a second fresh `SeedPhrase` device that passes the device checks fails
with `TooManyDevices`, not `MultipleRecoveryPhrases` — the device-count check
runs first inside `check_anchor_invariants`. -/
theorem single_recovery_phrase_counterexample :
    (∃ e ∈ anchor10seed.devices, e.key_type = KeyType.SeedPhrase) ∧
    devSeed2.key_type = KeyType.SeedPhrase ∧
    (∀ e ∈ anchor10seed.devices, e.pubkey ≠ devSeed2.pubkey) ∧
    check_device_invariants devSeed2 = .ok () ∧
    anchor10seed.add_device devSeed2 = (anchor10seed, .error (.TooManyDevices 10 11)) ∧
    (anchor10seed.add_device devSeed2).2 ≠ .error .MultipleRecoveryPhrases := by
  decide

/-- Claim C8 (amended): on an anchor containing a `SeedPhrase` device, adding
a second fresh `SeedPhrase` device that passes the device checks fails with
`MultipleRecoveryPhrases` provided the post state is within the device-count
and cumulative-size limits, which `check_anchor_invariants` tests first; and
no successful `add_device` or `modify_device` produces a device list with two
`SeedPhrase` devices. -/
theorem single_recovery_phrase_spec (a : Anchor) (d : Device) :
    ((∃ e ∈ a.devices, e.key_type = KeyType.SeedPhrase) →
      d.key_type = KeyType.SeedPhrase →
      (∀ e ∈ a.devices, e.pubkey ≠ d.pubkey) →
      check_device_invariants d = .ok () →
      (a.devices ++ [d]).length ≤ 10 →
      ((a.devices ++ [d]).map Device.variable_fields_len).sum ≤ 2348 →
      a.add_device d = (a, .error .MultipleRecoveryPhrases)) ∧
    (∀ a', a.add_device d = (a', .ok ()) →
      a'.devices.countP (fun e => e.key_type == KeyType.SeedPhrase) ≤ 1) ∧
    (a.devices.Pairwise (fun x y => x.pubkey ≠ y.pubkey) →
      ∀ k c a', a.modify_device k d c = (a', .ok ()) →
      a'.devices.countP (fun e => e.key_type == KeyType.SeedPhrase) ≤ 1) := by
  refine ⟨?_, ?_, ?_⟩
  · intro hex hdseed hno hdev hlen hsum
    have hgt : (a.devices ++ [d]).countP (fun e => e.key_type == KeyType.SeedPhrase) > 1 := by
      rw [List.countP_append]
      obtain ⟨e, he, hes⟩ := hex
      have h1 : 0 < a.devices.countP (fun e => e.key_type == KeyType.SeedPhrase) :=
        List.countP_pos_iff.mpr ⟨e, he, by simp [hes]⟩
      have h2 : List.countP (fun e => e.key_type == KeyType.SeedPhrase) [d] = 1 := by
        simp [hdseed]
      omega
    have hanch : check_anchor_invariants (a.devices ++ [d]) =
        .error .MultipleRecoveryPhrases := by
      unfold check_anchor_invariants MAX_DEVICES_PER_ANCHOR VARIABLE_FIELDS_LIMIT
      simp only []
      rw [if_neg (by omega), if_neg (by omega), if_pos hgt]
    simp only [add_device_run hno, hdev, hanch]
  · intro a' h
    obtain ⟨hdevs, _, _, hanch⟩ := add_device_ok h
    rw [hdevs]
    exact (check_anchor_invariants_ok hanch).2.2
  · intro hdist k c a' h
    obtain ⟨hk, hdev, ⟨ex, hfind, hmut⟩, hanch, hdevs⟩ := modify_device_ok h
    have hperm := modify_checked_perm (d := d) hdist hfind
    rw [hdevs, ← hperm.countP_eq]
    exact (check_anchor_invariants_ok hanch).2.2

/-- Witness for the amended C8: on a small anchor holding one recovery
phrase, adding a second one fails with `MultipleRecoveryPhrases`. -/
theorem single_recovery_phrase_spec_witness :
    (⟨[devSeed1]⟩ : Anchor).add_device devSeed2 =
      (⟨[devSeed1]⟩, .error .MultipleRecoveryPhrases) :=
  (single_recovery_phrase_spec ⟨[devSeed1]⟩ devSeed2).1
    (by decide) (by decide) (by decide) (by decide) (by decide) (by decide)
